import Mathlib

/-!
# Verification of the DeepLX-Worker specification against its two sources

Shallow embedding of `src/index.js` (suffix `A` where the two files differ)
and `src/unnamed/part_000` (suffix `B`).  Pure helper functions are embedded
directly; `Date.now()`, the pseudo-random id and the single upstream `fetch`
are passed as explicit parameters/oracles; the Cloudflare response cache is
threaded as explicit state; thrown JavaScript exceptions are a `JsOutcome`
constructor.  Cache lookups and outbound network requests are counted in a
`Trace` so that "no cache lookup / no network request" claims are statable.
-/

namespace DeepLXWorker

/-! ## Request Signature Builder (src/index.js lines 16-40, part_000 lines 16-40) -/

/-- `getICount` from both sources: `translateText.split('i').length - 1`
(the `|| 0` in index.js never fires, the split length is at least 1). -/
def getICount (translateText : String) : Nat :=
  (translateText.splitOn "i").length - 1

/-- `getTimeStamp` from both sources.  `Date.now()` is modelled as the
explicit argument `ts` (milliseconds since epoch, a nonnegative integer).
Source: `if (iCount !== 0) { const i = iCount + 1; return ts - (ts % i) + i; }
return ts;`. -/
def getTimeStamp (iCount : Nat) (ts : Nat) : Nat :=
  if iCount ≠ 0 then
    ts - (ts % (iCount + 1)) + (iCount + 1)
  else
    ts

/-- The literal substring `"method":"` that `handlerBodyMethod` rewrites. -/
def patMethod : List Char := ['"', 'm', 'e', 't', 'h', 'o', 'd', '"', ':', '"']

/-- The replacement `"method" : "` (spaces around the colon). -/
def repSpaced : List Char := ['"', 'm', 'e', 't', 'h', 'o', 'd', '"', ' ', ':', ' ', '"']

/-- The replacement `"method": "` (space only after the colon). -/
def repPlain : List Char := ['"', 'm', 'e', 't', 'h', 'o', 'd', '"', ':', ' ', '"']

/-- The modular condition of `handlerBodyMethod`:
`(random + 5) % 29 === 0 || (random + 3) % 13 === 0`.  JavaScript's `%` on
integers truncates toward zero, which is `Int.tmod`. -/
def hbmCalc (random : Int) : Bool :=
  (random + 5).tmod 29 == 0 || (random + 3).tmod 13 == 0

/-- Containment of `o` as a contiguous substring, over `List Char`. -/
def containsSub (o : List Char) : List Char → Bool
  | [] => o.isPrefixOf []
  | c :: t => o.isPrefixOf (c :: t) || containsSub o t

/-- JavaScript `String.prototype.replace` with a string pattern: replace the
first occurrence of `pat` (here always nonempty) by `rep`; if `pat` does not
occur, return the string unchanged. -/
def replaceFirst (pat rep : List Char) : List Char → List Char
  | [] => []
  | c :: t =>
    if pat.isPrefixOf (c :: t) then rep ++ (c :: t).drop pat.length
    else c :: replaceFirst pat rep t

/-- `handlerBodyMethod` from both sources, over the characters of the
serialized payload. -/
def handlerBodyMethod (random : Int) (body : List Char) : List Char :=
  if hbmCalc random then replaceFirst patMethod repSpaced body
  else replaceFirst patMethod repPlain body

/-! ## Basic facts about `getTimeStamp` (claim C1) -/

/-- C1: for every current time `ts` and every `featureCount > 0`,
`getTimeStamp featureCount ts = ts - (ts mod d) + d` with `d = featureCount + 1`,
the result is an exact multiple of `d` and is strictly greater than `ts`;
for `featureCount = 0` the result is `ts` unchanged. -/
theorem getTimeStamp_spec (iCount ts : Nat) :
    (0 < iCount →
      getTimeStamp iCount ts = ts - (ts % (iCount + 1)) + (iCount + 1) ∧
      (iCount + 1) ∣ getTimeStamp iCount ts ∧
      ts < getTimeStamp iCount ts) ∧
    getTimeStamp 0 ts = ts := by
  constructor
  · intro h
    have hne : iCount ≠ 0 := Nat.pos_iff_ne_zero.mp h
    have hval : getTimeStamp iCount ts = ts - (ts % (iCount + 1)) + (iCount + 1) := by
      simp [getTimeStamp, hne]
    have hlt : ts % (iCount + 1) < iCount + 1 :=
      Nat.mod_lt ts (Nat.succ_pos iCount)
    have hdvd : (iCount + 1) ∣ (ts - (ts % (iCount + 1)) + (iCount + 1)) :=
      Nat.dvd_add (Nat.dvd_sub_mod ts) (dvd_refl _)
    refine ⟨hval, hval ▸ hdvd, ?_⟩
    rw [hval]; omega
  · simp [getTimeStamp]

/-- Witness for C1 at `featureCount = 2`, `ts = 7`: the result is `9`. -/
theorem getTimeStamp_spec_witness :
    getTimeStamp 2 7 = 7 - (7 % 3) + 3 ∧ 3 ∣ getTimeStamp 2 7 ∧ 7 < getTimeStamp 2 7 :=
  (getTimeStamp_spec 2 7).1 (by decide)

/-! ## Substring lemmas for `handlerBodyMethod` (claim C2) -/

theorem pre_nil {o : List Char} (h : o.isPrefixOf ([] : List Char) = true) : o = [] := by
  cases o with
  | nil => rfl
  | cons a t => simp [List.isPrefixOf] at h

theorem pre_eq_append {o s : List Char} (h : o.isPrefixOf s = true) :
    s = o ++ s.drop o.length := by
  induction o generalizing s with
  | nil => simp
  | cons a o ih =>
    cases s with
    | nil => simp [List.isPrefixOf] at h
    | cons b t =>
      simp only [List.isPrefixOf, Bool.and_eq_true, beq_iff_eq] at h
      obtain ⟨rfl, h2⟩ := h
      simpa using ih h2

theorem pre_extend {o x : List Char} (y : List Char) (h : o.isPrefixOf x = true) :
    o.isPrefixOf (x ++ y) = true := by
  induction o generalizing x with
  | nil => simp [List.isPrefixOf]
  | cons a o ih =>
    cases x with
    | nil => simp [List.isPrefixOf] at h
    | cons b t =>
      simp only [List.isPrefixOf, Bool.and_eq_true, beq_iff_eq] at h
      simp only [List.cons_append, List.isPrefixOf, Bool.and_eq_true, beq_iff_eq]
      exact ⟨h.1, ih h.2⟩

theorem pre_self (o z : List Char) : o.isPrefixOf (o ++ z) = true := by
  induction o with
  | nil => simp [List.isPrefixOf]
  | cons a t ih => simp [List.isPrefixOf, ih]

theorem contains_of_pre {o s : List Char} (h : o.isPrefixOf s = true) :
    containsSub o s = true := by
  cases s with
  | nil => simpa [containsSub] using h
  | cons c t => simp [containsSub, h]

theorem contains_append_right (x : List Char) {y o : List Char}
    (h : containsSub o y = true) : containsSub o (x ++ y) = true := by
  induction x with
  | nil => simpa using h
  | cons c t ih =>
    simp only [List.cons_append, containsSub, Bool.or_eq_true]
    exact Or.inr ih

theorem contains_append_left (y : List Char) {x o : List Char}
    (h : containsSub o x = true) : containsSub o (x ++ y) = true := by
  induction x with
  | nil =>
    have : o = [] := pre_nil (by simpa [containsSub] using h)
    subst this
    exact contains_of_pre (by simp [List.isPrefixOf])
  | cons c t ih =>
    simp only [containsSub, Bool.or_eq_true] at h
    simp only [List.cons_append, containsSub, Bool.or_eq_true]
    rcases h with h | h
    · exact Or.inl (pre_extend y h)
    · exact Or.inr (ih h)

theorem pre_append_split (pre : List Char) {o z : List Char}
    (h : o.isPrefixOf (pre ++ z) = true) :
    o.isPrefixOf pre = true ∨ ∃ o₂, o = pre ++ o₂ ∧ o₂.isPrefixOf z = true := by
  induction pre generalizing o with
  | nil => exact Or.inr ⟨o, rfl, by simpa using h⟩
  | cons c p ih =>
    cases o with
    | nil => exact Or.inl (by simp [List.isPrefixOf])
    | cons a t =>
      simp only [List.cons_append, List.isPrefixOf, Bool.and_eq_true, beq_iff_eq] at h
      obtain ⟨rfl, h2⟩ := h
      rcases ih h2 with hp | ⟨o₂, rfl, h3⟩
      · exact Or.inl (by simp [List.isPrefixOf, hp])
      · exact Or.inr ⟨o₂, by simp, h3⟩

theorem contains_append_split (x : List Char) {y o : List Char}
    (h : containsSub o (x ++ y) = true) :
    (∃ x' w, w ++ x' = x ∧ o.isPrefixOf (x' ++ y) = true) ∨ containsSub o y = true := by
  induction x with
  | nil => exact Or.inr (by simpa using h)
  | cons c t ih =>
    simp only [List.cons_append, containsSub, Bool.or_eq_true] at h
    rcases h with h | h
    · exact Or.inl ⟨c :: t, [], rfl, by simpa using h⟩
    · rcases ih h with ⟨x', w, hw, hp⟩ | hy
      · exact Or.inl ⟨x', c :: w, by rw [← hw]; rfl, hp⟩
      · exact Or.inr hy

theorem pre_take {o s : List Char} (h : o.isPrefixOf s = true) :
    o = s.take o.length := by
  have h2 := pre_eq_append h
  rw [h2, List.take_left]

theorem suffix_drop {w o₂ other : List Char} (h : w ++ o₂ = other) :
    o₂ = other.drop w.length := by
  rw [← h, List.drop_left]

theorem pre_length {o s : List Char} (h : o.isPrefixOf s = true) :
    o.length ≤ s.length := by
  have h2 := congrArg List.length (pre_eq_append h)
  simp only [List.length_append] at h2
  omega

theorem plainSel : ∀ m : Nat, m < 12 →
    repPlain.take m = repSpaced.drop (12 - m) → m = 0 ∨ m = 1 := by decide

/-- Spanning occurrences of `repSpaced` that begin inside an arbitrary `pre`
placed before the replacement `repPlain` already occur when `patMethod` sits
in the same position. -/
theorem plainPre (pre rest : List Char)
    (h : repSpaced.isPrefixOf (pre ++ (repPlain ++ rest)) = true) :
    containsSub repSpaced (pre ++ (patMethod ++ rest)) = true := by
  rcases pre_append_split pre h with hp | ⟨o₂, ho, h₂⟩
  · exact contains_append_left _ (contains_of_pre hp)
  · rcases pre_append_split repPlain h₂ with hA | ⟨o₃, ho3, h₃⟩
    · -- repSpaced = pre ++ o₂ with o₂ a prefix of repPlain
      have hbound : o₂.length ≤ 11 := by
        have := pre_length hA
        simpa [repPlain] using this
      have ht : o₂ = repPlain.take o₂.length := pre_take hA
      have hd : o₂ = repSpaced.drop pre.length := suffix_drop ho.symm
      have hlen : pre.length + o₂.length = 12 := by
        have := congrArg List.length ho
        simp [repSpaced, List.length_append] at this
        omega
      have hcons : repPlain.take o₂.length = repSpaced.drop (12 - o₂.length) := by
        have h12 : 12 - o₂.length = pre.length := by omega
        rw [h12, ← hd, ← ht]
      rcases plainSel o₂.length (by omega) hcons with h0 | h1
      · have : o₂ = [] := List.length_eq_zero.mp h0
        subst this
        simp only [List.append_nil] at ho
        rw [← ho]
        exact contains_of_pre (pre_self _ _)
      · rw [h1] at ht
        simp only [repPlain, List.take_succ_cons, List.take_zero] at ht
        subst ht
        have e : repSpaced = ['"','m','e','t','h','o','d','"',' ',':',' '] ++ ['"'] := by decide
        obtain ⟨hpre, -⟩ := List.append_inj (ho.symm.trans e) (by simp; omega)
        subst hpre
        exact contains_of_pre (by simp [repSpaced, patMethod, List.isPrefixOf])
    · -- repSpaced = pre ++ repPlain ++ o₃: impossible, since repPlain occurs
      -- at no offset of repSpaced
      subst ho3
      have hdropPre : repPlain ++ o₃ = repSpaced.drop pre.length := suffix_drop ho.symm
      have hlen : pre.length + 11 + o₃.length = 12 := by
        have h := congrArg List.length ho
        simp [repSpaced, repPlain, List.length_append] at h
        omega
      have h11 : repPlain.length = 11 := by decide
      have hmid : (repSpaced.drop pre.length).take 11 = repPlain := by
        rw [← hdropPre, ← h11, List.take_left]
      have hdead : ∀ m : Nat, m < 2 → (repSpaced.drop m).take 11 ≠ repPlain := by decide
      exact absurd hmid (hdead pre.length (by omega))

theorem spacedSel : ∀ m : Nat, m < 12 →
    repSpaced.take m = repPlain.drop (11 - m) → m = 0 ∨ m = 1 := by decide

/-- Spanning occurrences of `repPlain` that begin inside an arbitrary `pre`
placed before the replacement `repSpaced` already occur when `patMethod` sits
in the same position. -/
theorem spacedPre (pre rest : List Char)
    (h : repPlain.isPrefixOf (pre ++ (repSpaced ++ rest)) = true) :
    containsSub repPlain (pre ++ (patMethod ++ rest)) = true := by
  rcases pre_append_split pre h with hp | ⟨o₂, ho, h₂⟩
  · exact contains_append_left _ (contains_of_pre hp)
  · rcases pre_append_split repSpaced h₂ with hA | ⟨o₃, ho3, h₃⟩
    · -- repPlain = pre ++ o₂ with o₂ a prefix of repSpaced
      have ht : o₂ = repSpaced.take o₂.length := pre_take hA
      have hd : o₂ = repPlain.drop pre.length := suffix_drop ho.symm
      have hlen : pre.length + o₂.length = 11 := by
        have := congrArg List.length ho
        simp [repPlain, List.length_append] at this
        omega
      have hcons : repSpaced.take o₂.length = repPlain.drop (11 - o₂.length) := by
        have h12 : 11 - o₂.length = pre.length := by omega
        rw [h12, ← hd, ← ht]
      rcases spacedSel o₂.length (by omega) hcons with h0 | h1
      · have : o₂ = [] := List.length_eq_zero.mp h0
        subst this
        simp only [List.append_nil] at ho
        rw [← ho]
        exact contains_of_pre (pre_self _ _)
      · rw [h1] at ht
        simp only [repSpaced, List.take_succ_cons, List.take_zero] at ht
        subst ht
        have e : repPlain = ['"','m','e','t','h','o','d','"',':',' '] ++ ['"'] := by decide
        obtain ⟨hpre, -⟩ := List.append_inj (ho.symm.trans e) (by simp; omega)
        subst hpre
        exact contains_of_pre (by simp [repPlain, patMethod, List.isPrefixOf])
    · -- repPlain = pre ++ repSpaced ++ o₃: impossible, repPlain is shorter
      subst ho3
      rw [← List.append_assoc] at ho
      have h := congrArg List.length ho
      simp [repPlain, repSpaced, List.length_append] at h
      exfalso
      omega

/-- Contains-level span: an occurrence of `repSpaced` in `repPlain ++ rest`
yields one in `patMethod ++ rest`. -/
theorem plainKey (rest : List Char)
    (h : containsSub repSpaced (repPlain ++ rest) = true) :
    containsSub repSpaced (patMethod ++ rest) = true := by
  simp [repSpaced, repPlain, patMethod, containsSub, List.isPrefixOf] at h ⊢
  tauto

/-- Contains-level span: an occurrence of `repPlain` in `repSpaced ++ rest`
yields one in `patMethod ++ rest`. -/
theorem spacedKey (rest : List Char)
    (h : containsSub repPlain (repSpaced ++ rest) = true) :
    containsSub repPlain (patMethod ++ rest) = true := by
  simp [repSpaced, repPlain, patMethod, containsSub, List.isPrefixOf] at h ⊢
  tauto

/-- Replacing `patMethod` by `repSpaced` cannot create an occurrence of
`repPlain` that the original string did not have. -/
theorem spacedNoCreate (pre post : List Char)
    (h : containsSub repPlain (pre ++ (repSpaced ++ post)) = true) :
    containsSub repPlain (pre ++ (patMethod ++ post)) = true := by
  rcases contains_append_split pre h with ⟨x', w, hw, hp⟩ | hy
  · have hc := spacedPre x' post hp
    rw [← hw, List.append_assoc]
    exact contains_append_right w hc
  · exact contains_append_right pre (spacedKey post hy)

/-- Replacing `patMethod` by `repPlain` cannot create an occurrence of
`repSpaced` that the original string did not have. -/
theorem plainNoCreate (pre post : List Char)
    (h : containsSub repSpaced (pre ++ (repPlain ++ post)) = true) :
    containsSub repSpaced (pre ++ (patMethod ++ post)) = true := by
  rcases contains_append_split pre h with ⟨x', w, hw, hp⟩ | hy
  · have hc := plainPre x' post hp
    rw [← hw, List.append_assoc]
    exact contains_append_right w hc
  · exact contains_append_right pre (plainKey post hy)

/-- If `pat` occurs in `body`, `replaceFirst` splits `body` at the first
occurrence and substitutes `rep` there. -/
theorem replaceFirst_decomp (pat rep : List Char) (hne : pat ≠ []) :
    ∀ body : List Char, containsSub pat body = true →
    ∃ pre post, body = pre ++ (pat ++ post) ∧
      replaceFirst pat rep body = pre ++ (rep ++ post) := by
  intro body
  induction body with
  | nil =>
    intro h
    exact absurd (pre_nil (by simpa [containsSub] using h)) hne
  | cons c t ih =>
    intro h
    by_cases hP : pat.isPrefixOf (c :: t) = true
    · refine ⟨[], (c :: t).drop pat.length, ?_, ?_⟩
      · simpa using pre_eq_append hP
      · simp [replaceFirst, hP]
    · have h2 : containsSub pat t = true := by
        simp only [containsSub, Bool.or_eq_true] at h
        rcases h with h | h
        · exact absurd h hP
        · exact h
      obtain ⟨pre, post, hb, hr⟩ := ih h2
      refine ⟨c :: pre, post, by simp [hb], ?_⟩
      simp only [replaceFirst, hP, if_false, Bool.false_eq_true]
      simp [hr]

/-- C2 (amended): for every integer id and every payload that contains
`"method":"` and contains neither of the two spaced variants, the rewritten
payload contains `"method" : "` exactly when `(id+5) mod 29 = 0` or
`(id+3) mod 13 = 0`, and contains `"method": "` exactly otherwise, so it
holds exactly one of the two substrings, chosen solely by the modular
condition; the output is a pure function of `(id, payload)`. -/
theorem handlerBodyMethod_spec (random : Int) (body : List Char)
    (hpat : containsSub patMethod body = true)
    (hs : containsSub repSpaced body = false)
    (hp : containsSub repPlain body = false) :
    containsSub repSpaced (handlerBodyMethod random body) = hbmCalc random ∧
    containsSub repPlain (handlerBodyMethod random body) = (!hbmCalc random) := by
  cases hc : hbmCalc random with
  | true =>
    obtain ⟨pre, post, hb, hr⟩ :=
      replaceFirst_decomp patMethod repSpaced (by simp [patMethod]) body hpat
    have hout : handlerBodyMethod random body = pre ++ (repSpaced ++ post) := by
      simp [handlerBodyMethod, hc, hr]
    rw [hout, Bool.not_true]
    constructor
    · exact contains_append_right pre (contains_of_pre (pre_self _ _))
    · cases hcc : containsSub repPlain (pre ++ (repSpaced ++ post)) with
      | false => rfl
      | true =>
        have hcon := spacedNoCreate pre post hcc
        rw [← hb, hp] at hcon
        exact absurd hcon (by simp)
  | false =>
    obtain ⟨pre, post, hb, hr⟩ :=
      replaceFirst_decomp patMethod repPlain (by simp [patMethod]) body hpat
    have hout : handlerBodyMethod random body = pre ++ (repPlain ++ post) := by
      simp [handlerBodyMethod, hc, hr]
    rw [hout, Bool.not_false]
    constructor
    · cases hcc : containsSub repSpaced (pre ++ (repPlain ++ post)) with
      | false => rfl
      | true =>
        have hcon := plainNoCreate pre post hcc
        rw [← hb, hs] at hcon
        exact absurd hcon (by simp)
    · exact contains_append_right pre (contains_of_pre (pre_self _ _))

/-- A payload refuting the unrestricted C2: it already contains
`"method": "` ahead of the single occurrence of `"method":"`. -/
def c2body : List Char :=
  ['"','m','e','t','h','o','d','"',':',' ','"','"','m','e','t','h','o','d','"',':','"']

/-- C2 counterexample: at id 24 (so `(24+5) mod 29 = 0` selects the spaced
variant) and the payload `c2body`, which contains `"method":"`, the output
of `handlerBodyMethod` contains BOTH `"method" : "` and `"method": "`,
refuting the claim that the output always contains exactly one of the two
substrings. -/
theorem handlerBodyMethod_counterexample :
    hbmCalc 24 = true ∧
    containsSub patMethod c2body = true ∧
    containsSub repSpaced (handlerBodyMethod 24 c2body) = true ∧
    containsSub repPlain (handlerBodyMethod 24 c2body) = true := by decide

/-- Witness for the amended C2 at id 24 and the payload `"method":"`. -/
theorem handlerBodyMethod_spec_witness :
    containsSub repSpaced (handlerBodyMethod 24 patMethod) = hbmCalc 24 ∧
    containsSub repPlain (handlerBodyMethod 24 patMethod) = (!hbmCalc 24) :=
  handlerBodyMethod_spec 24 patMethod (by decide) (by decide) (by decide)


/-! ## Data model: translation client and HTTP boundary -/

/-- A successful translation record: the fields of `finalResult`
(src/index.js lines 115-124, part_000 lines 129-138); the constant
`code: 200` field is implied by the constructor. -/
structure SuccessRec where
  id : Nat
  data : String
  alternatives : List String
  source_lang : String
  target_lang : String
  method : String
  cached : Bool
deriving DecidableEq

/-- Result of `deeplxTranslate`: an `{code, message}` failure object or the
success record above. -/
inductive TransResult
  | failure (code : Nat) (message : String)
  | success (rec1 : SuccessRec)
deriving DecidableEq

/-- `result.code` as read by the routing layer. -/
def TransResult.code : TransResult → Nat
  | .failure c _ => c
  | .success _ => 200

/-- Outcome of a JavaScript async call: a returned value, or a thrown
exception carrying the error message. -/
inductive JsOutcome (α : Type)
  | ret (a : α)
  | thrown (msg : String)
deriving DecidableEq

/-- `body.text` may be a string or an array of strings. -/
inductive JsText
  | str (s : String)
  | arr (xs : List String)
deriving DecidableEq

/-- JavaScript string coercion of a text value: template literals coerce an
array to its comma-joined elements. -/
def jsTextToString : JsText → String
  | .str s => s
  | .arr xs => String.intercalate "," xs

/-- JavaScript truthiness of `translateText` in `if (!translateText)`:
`undefined` and `""` are falsy; any array, even an empty one, is truthy. -/
def textTruthy : Option JsText → Bool
  | none => false
  | some (.str s) => s != ""
  | some (.arr _) => true

/-- Model of `String.prototype.toUpperCase` (faithful on ASCII); written
over the character list so that it evaluates by kernel reduction. -/
def jsUpper (s : String) : String := String.mk (s.data.map Char.toUpper)

/-- Helper for `jsSplitSpace`. -/
def splitSpaceAux : List Char → List Char → List String
  | [], acc => [String.mk acc.reverse]
  | c :: t, acc =>
    if c = ' ' then String.mk acc.reverse :: splitSpaceAux t []
    else splitSpaceAux t (c :: acc)

/-- JavaScript `str.split(' ')` (split at every single space). -/
def jsSplitSpace (s : String) : List String := splitSpaceAux s.data []

/-- JavaScript `str.startsWith(p)`. -/
def jsStartsWith (s p : String) : Bool := p.data.isPrefixOf s.data

/-- `finalSourceLang` (index.js line 49, part_000 line 52):
`(!sourceLang || sourceLang === 'auto') ? 'EN' : sourceLang.toUpperCase()`. -/
def finalSourceLangOf : Option String → String
  | none => "EN"
  | some s => if s = "" ∨ s = "auto" then "EN" else jsUpper s

/-- The cache key abbreviates the URL
`https://deeplx.cache/<src>/<tgt>/<encodeURIComponent(text)>` by its three
interpolated components. -/
abbrev CacheKey := String × String × String

/-- The response cache `caches.default`, most recent write first; the
one-hour freshness window has no observable effect on back-to-back calls
and is not modelled. -/
abbrev CacheState := List (CacheKey × SuccessRec)

/-- `cache.match(cacheKey)`. -/
def cacheMatchKey (k : CacheKey) : CacheState → Option SuccessRec
  | [] => none
  | (k', v) :: rest => if k' = k then some v else cacheMatchKey k rest

/-- `cache.put(cacheKey, response)`, modelled as completing before the call
returns (`ctx.waitUntil` fire-and-forget). -/
def cachePutKey (k : CacheKey) (v : SuccessRec) (c : CacheState) : CacheState :=
  (k, v) :: c

/-- One element of the upstream `result.texts` list; `alternatives` models
`texts[0].alternatives?.map(alt => alt.text)` before the `|| []`. -/
structure UpstreamText where
  text : String
  alternatives : Option (List String)
deriving DecidableEq

/-- The upstream `result` object. -/
structure UpstreamResult where
  texts : Option (List UpstreamText)
  lang : String
deriving DecidableEq

/-- Parsed upstream response body; `err` models a truthy `error` object,
carrying `error.message`. -/
structure UpstreamJson where
  err : Option String
  result : Option UpstreamResult
deriving DecidableEq

/-- What the single `fetch` to the upstream endpoint yields: a network
fault (the promise rejects with message `msg`), or a response carrying the
HTTP status, the raw body text (read by the error path) and the outcome of
parsing the body as JSON. -/
inductive FetchReply
  | fail (msg : String)
  | reply (status : Nat) (errText : String) (json : Except String UpstreamJson)

/-- `response.ok`: HTTP status in `[200, 300)`. -/
def respOk (status : Nat) : Bool := decide (200 ≤ status) && decide (status < 300)

/-- Observable effect counters of one translate call. -/
structure Trace where
  lookups : Nat
  fetches : Nat
deriving DecidableEq

/-- Outcome of one `deeplxTranslate` call: result or thrown exception, the
cache state after the call, and the effect counters. -/
structure TransEffect where
  outcome : JsOutcome TransResult
  cache : CacheState
  trace : Trace
deriving DecidableEq

def noTextMsg : String := "No text to translate."
def rateMsg : String := "Too many requests, your IP has been blocked by DeepL temporarily."
def noTextReturnedMsg : String := "Translation failed, no text returned."
def typeErrUpperMsg : String :=
  "TypeError: Cannot read properties of undefined (reading 'toUpperCase')"
def typeErrSplitMsg : String := "TypeError: translateText.split is not a function"

/-- `deeplxTranslate` of src/index.js (lines 44-138).  The random id and
the fetch outcome are oracle parameters; the outbound JSON-RPC payload
(built from `getICount`, `getTimeStamp`, `handlerBodyMethod`) is not
observable in the response and is not materialized here. -/
def deeplxTranslateA (sourceLang targetLang : Option String)
    (translateText : Option JsText) (dlSession : String) (useCache : Bool)
    (idRand : Nat) (reply : FetchReply) (cache : CacheState) : TransEffect :=
  if textTruthy translateText = false then
    ⟨.ret (.failure 400 noTextMsg), cache, ⟨0, 0⟩⟩
  else
    let finalSourceLang := finalSourceLangOf sourceLang
    match targetLang with
    | none => ⟨.thrown typeErrUpperMsg, cache, ⟨0, 0⟩⟩
    | some tgt =>
      let finalTargetLang := jsUpper tgt
      let txt := translateText.getD (.str "")
      let cacheKey : CacheKey := (finalSourceLang, finalTargetLang, jsTextToString txt)
      let lookups := if useCache then 1 else 0
      match (if useCache then cacheMatchKey cacheKey cache else none) with
      | some rec0 => ⟨.ret (.success { rec0 with cached := true }), cache, ⟨1, 0⟩⟩
      | none =>
        match txt with
        | .arr _ => ⟨.thrown typeErrSplitMsg, cache, ⟨lookups, 0⟩⟩
        | .str _ =>
          match reply with
          | .fail m =>
            ⟨.ret (.failure 500 ("An unexpected error occurred: " ++ m)), cache, ⟨lookups, 1⟩⟩
          | .reply status errText json =>
            if status = 429 then
              ⟨.ret (.failure 429 rateMsg), cache, ⟨lookups, 1⟩⟩
            else if respOk status = false then
              ⟨.ret (.failure status ("DeepL API error: " ++ errText)), cache, ⟨lookups, 1⟩⟩
            else
              match json with
              | .error m =>
                ⟨.ret (.failure 500 ("An unexpected error occurred: " ++ m)), cache,
                  ⟨lookups, 1⟩⟩
              | .ok j =>
                match j.err with
                | some em =>
                  ⟨.ret (.failure 500 ("DeepL API returned an error: " ++ em)), cache,
                    ⟨lookups, 1⟩⟩
                | none =>
                  match j.result with
                  | none => ⟨.ret (.failure 500 noTextReturnedMsg), cache, ⟨lookups, 1⟩⟩
                  | some r =>
                    match r.texts with
                    | none => ⟨.ret (.failure 500 noTextReturnedMsg), cache, ⟨lookups, 1⟩⟩
                    | some [] => ⟨.ret (.failure 500 noTextReturnedMsg), cache, ⟨lookups, 1⟩⟩
                    | some (t0 :: _) =>
                      if t0.text = "" then
                        ⟨.ret (.failure 500 noTextReturnedMsg), cache, ⟨lookups, 1⟩⟩
                      else
                        let rec1 : SuccessRec :=
                          { id := idRand, data := t0.text,
                            alternatives := t0.alternatives.getD [],
                            source_lang := r.lang, target_lang := finalTargetLang,
                            method := if dlSession != "" then "Pro" else "Free",
                            cached := false }
                        let cache' := if useCache then cachePutKey cacheKey rec1 cache else cache
                        ⟨.ret (.success rec1), cache', ⟨lookups, 1⟩⟩

/-- `deeplxTranslate` of part_000 (lines 44-151): identical until the fetch,
but every upstream failure `throw`s instead of returning a failure record,
and the `texts[0].text` emptiness check of index.js is absent. -/
def deeplxTranslateB (sourceLang targetLang : Option String)
    (translateText : Option JsText) (dlSession : String) (useCache : Bool)
    (idRand : Nat) (reply : FetchReply) (cache : CacheState) : TransEffect :=
  if textTruthy translateText = false then
    ⟨.ret (.failure 400 noTextMsg), cache, ⟨0, 0⟩⟩
  else
    let finalSourceLang := finalSourceLangOf sourceLang
    match targetLang with
    | none => ⟨.thrown typeErrUpperMsg, cache, ⟨0, 0⟩⟩
    | some tgt =>
      let finalTargetLang := jsUpper tgt
      let txt := translateText.getD (.str "")
      let cacheKey : CacheKey := (finalSourceLang, finalTargetLang, jsTextToString txt)
      let lookups := if useCache then 1 else 0
      match (if useCache then cacheMatchKey cacheKey cache else none) with
      | some rec0 => ⟨.ret (.success { rec0 with cached := true }), cache, ⟨1, 0⟩⟩
      | none =>
        match txt with
        | .arr _ => ⟨.thrown typeErrSplitMsg, cache, ⟨lookups, 0⟩⟩
        | .str _ =>
          match reply with
          | .fail m => ⟨.thrown m, cache, ⟨lookups, 1⟩⟩
          | .reply status errText json =>
            if status = 429 then
              ⟨.thrown rateMsg, cache, ⟨lookups, 1⟩⟩
            else if respOk status = false then
              ⟨.thrown ("DeepL API error: " ++ toString status ++ " " ++ errText), cache,
                ⟨lookups, 1⟩⟩
            else
              match json with
              | .error m => ⟨.thrown m, cache, ⟨lookups, 1⟩⟩
              | .ok j =>
                match j.err with
                | some em =>
                  ⟨.thrown ("DeepL API returned an error: " ++ em), cache, ⟨lookups, 1⟩⟩
                | none =>
                  match j.result with
                  | none => ⟨.thrown noTextReturnedMsg, cache, ⟨lookups, 1⟩⟩
                  | some r =>
                    match r.texts with
                    | none => ⟨.thrown noTextReturnedMsg, cache, ⟨lookups, 1⟩⟩
                    | some [] => ⟨.thrown noTextReturnedMsg, cache, ⟨lookups, 1⟩⟩
                    | some (t0 :: _) =>
                      let rec1 : SuccessRec :=
                        { id := idRand, data := t0.text,
                          alternatives := t0.alternatives.getD [],
                          source_lang := r.lang, target_lang := finalTargetLang,
                          method := if dlSession != "" then "Pro" else "Free",
                          cached := false }
                      let cache' := if useCache then cachePutKey cacheKey rec1 cache else cache
                      ⟨.ret (.success rec1), cache', ⟨lookups, 1⟩⟩

/-! ## HTTP boundary -/

/-- Structured response bodies (each constructor is one of the JSON object
shapes `JSON.stringify`-ed by the sources, with field order fixed there). -/
inductive HttpBody
  | empty
  | msg (code : Nat) (message : String)
  | fault (code : Nat) (message : String) (error : String)
  | result (rec1 : SuccessRec)
  | official (detected : String) (text : String) (cached : Bool)
  | info (code : Nat) (message : String) (repository : Option String)
deriving DecidableEq

structure HttpResponse where
  status : Nat
  body : HttpBody
deriving DecidableEq

/-- Worker environment bindings. -/
structure Env where
  TOKEN : Option String
  DL_SESSION : Option String
deriving DecidableEq

/-- The parsed JSON request body fields the routes read. -/
structure TranslateBody where
  source_lang : Option String
  target_lang : Option String
  text : Option JsText
  cache : Option Bool
deriving DecidableEq

/-- An inbound request: `none` for `body` means `await request.json()`
rejects (missing or malformed JSON). -/
structure JsRequest where
  method : String
  pathname : String
  tokenQuery : Option String
  authHeader : Option String
  body : Option TranslateBody
deriving DecidableEq

/-- Extraction of the bearer token from the `Authorization` header:
`parts.length === 2 && (parts[0] === 'Bearer' || parts[0] === 'DeepL-Auth-Key')`. -/
def tokenInHeaderOf (authHeader : Option String) : String :=
  match authHeader with
  | none => ""
  | some ah =>
    match jsSplitSpace ah with
    | [p0, p1] => if p0 = "Bearer" ∨ p0 = "DeepL-Auth-Key" then p1 else ""
    | _ => ""

/-- The shared-secret check (index.js lines 146-159; part_000 lines 159-177
contain the same logic): `true` exactly when the 401 "Invalid access token"
response is produced. -/
def authFails (req : JsRequest) (env : Env) : Bool :=
  match env.TOKEN with
  | none => false
  | some t =>
    if t = "" then false
    else (req.tokenQuery != some t) && (tokenInHeaderOf req.authHeader != t)

/-- `isPrivate`: `env.TOKEN !== undefined && env.TOKEN !== ''`. -/
def isPrivateOf (env : Env) : Bool :=
  match env.TOKEN with
  | none => false
  | some t => t != ""

/-- `useCache`: `body.cache !== undefined ? body.cache : !isPrivate`
(identical in both sources, for all three endpoints). -/
def useCacheOf (body : TranslateBody) (env : Env) : Bool :=
  body.cache.getD (!isPrivateOf env)

/-- `JSON.stringify(result)` at the boundary. -/
def resultBody : TransResult → HttpBody
  | .failure c m => .msg c m
  | .success rec1 => .result rec1

/-- The v2 text join:
`Array.isArray(body.text) ? body.text.join('\n') : body.text`. -/
def joinV2Text : Option JsText → Option JsText
  | some (.arr xs) => some (.str (String.intercalate "\n" xs))
  | t => t

/-- Outcome of `handleRequest`: a response or a propagating exception, plus
cache state and effect counters. -/
structure HandleEffect where
  outcome : JsOutcome HttpResponse
  cache : CacheState
  trace : Trace
deriving DecidableEq

/-- `handleRequest` of src/index.js (lines 142-203).  The token check runs
before the routing, so it guards every path, including `GET /` and the 404
fallback.  Note `result.code || 500` on the shared response return and that
a POST whose path merely starts with one of the three route names is
handled by the final `/v2/translate` arm of the if/else chain. -/
def handleRequestA (req : JsRequest) (env : Env) (idRand : Nat)
    (reply : FetchReply) (cache : CacheState) : HandleEffect :=
  if authFails req env then
    ⟨.ret ⟨401, .msg 401 "Invalid access token"⟩, cache, ⟨0, 0⟩⟩
  else if req.method == "POST" && (jsStartsWith req.pathname "/translate"
      || jsStartsWith req.pathname "/v1/translate"
      || jsStartsWith req.pathname "/v2/translate") then
    match req.body with
    | none => ⟨.ret ⟨400, .msg 400 "Invalid JSON in request body"⟩, cache, ⟨0, 0⟩⟩
    | some body =>
      let useCache := useCacheOf body env
      if req.pathname == "/translate" then
        let e := deeplxTranslateA body.source_lang body.target_lang body.text ""
          useCache idRand reply cache
        match e.outcome with
        | .thrown m => ⟨.thrown m, e.cache, e.trace⟩
        | .ret r => ⟨.ret ⟨(if r.code = 0 then 500 else r.code), resultBody r⟩, e.cache, e.trace⟩
      else if req.pathname == "/v1/translate" then
        match env.DL_SESSION with
        | none => ⟨.ret ⟨401, .msg 401 "DL_SESSION is not configured."⟩, cache, ⟨0, 0⟩⟩
        | some ds =>
          if ds = "" then
            ⟨.ret ⟨401, .msg 401 "DL_SESSION is not configured."⟩, cache, ⟨0, 0⟩⟩
          else
            let e := deeplxTranslateA body.source_lang body.target_lang body.text ds
              useCache idRand reply cache
            match e.outcome with
            | .thrown m => ⟨.thrown m, e.cache, e.trace⟩
            | .ret r =>
              ⟨.ret ⟨(if r.code = 0 then 500 else r.code), resultBody r⟩, e.cache, e.trace⟩
      else
        let e := deeplxTranslateA (some "auto") body.target_lang (joinV2Text body.text) ""
          useCache idRand reply cache
        match e.outcome with
        | .thrown m => ⟨.thrown m, e.cache, e.trace⟩
        | .ret r =>
          match r with
          | .success rec1 =>
            ⟨.ret ⟨200, .official rec1.source_lang rec1.data rec1.cached⟩, e.cache, e.trace⟩
          | .failure _ _ =>
            ⟨.ret ⟨(if r.code = 0 then 500 else r.code), resultBody r⟩, e.cache, e.trace⟩
  else if req.method == "GET" && req.pathname == "/" then
    ⟨.ret ⟨200, .info 200 "DeepLX-Worker: A Cloudflare Worker implementation of DeepLX."
      none⟩, cache, ⟨0, 0⟩⟩
  else
    ⟨.ret ⟨404, .msg 404 "Not Found"⟩, cache, ⟨0, 0⟩⟩

/-- `handleRequest` of part_000 (lines 155-230).  The `&&` in line 180
binds tighter than `||`, so only the `/translate` arm requires POST; the
token check runs inside this branch only; a failing `/v2` result and a
merely-matching path fall through to the 404 at the bottom (the `GET /`
check cannot match there). -/
def handleRequestB (req : JsRequest) (env : Env) (idRand : Nat)
    (reply : FetchReply) (cache : CacheState) : HandleEffect :=
  if (req.method == "POST" && jsStartsWith req.pathname "/translate")
      || jsStartsWith req.pathname "/v1/translate"
      || jsStartsWith req.pathname "/v2/translate" then
    if authFails req env then
      ⟨.ret ⟨401, .msg 401 "Invalid access token"⟩, cache, ⟨0, 0⟩⟩
    else
      match req.body with
      | none => ⟨.ret ⟨400, .msg 400 "Invalid JSON in request body"⟩, cache, ⟨0, 0⟩⟩
      | some body =>
        let useCache := useCacheOf body env
        if req.pathname == "/translate" then
          let e := deeplxTranslateB body.source_lang body.target_lang body.text ""
            useCache idRand reply cache
          match e.outcome with
          | .thrown m => ⟨.thrown m, e.cache, e.trace⟩
          | .ret r => ⟨.ret ⟨r.code, resultBody r⟩, e.cache, e.trace⟩
        else if req.pathname == "/v1/translate" then
          match env.DL_SESSION with
          | none =>
            ⟨.ret ⟨401, .msg 401 "DL_SESSION is not configured in worker environment."⟩,
              cache, ⟨0, 0⟩⟩
          | some ds =>
            if ds = "" then
              ⟨.ret ⟨401, .msg 401 "DL_SESSION is not configured in worker environment."⟩,
                cache, ⟨0, 0⟩⟩
            else
              let e := deeplxTranslateB body.source_lang body.target_lang body.text ds
                useCache idRand reply cache
              match e.outcome with
              | .thrown m => ⟨.thrown m, e.cache, e.trace⟩
              | .ret r => ⟨.ret ⟨r.code, resultBody r⟩, e.cache, e.trace⟩
        else if req.pathname == "/v2/translate" then
          let e := deeplxTranslateB (some "auto") body.target_lang (joinV2Text body.text) ""
            useCache idRand reply cache
          match e.outcome with
          | .thrown m => ⟨.thrown m, e.cache, e.trace⟩
          | .ret r =>
            match r with
            | .success rec1 =>
              ⟨.ret ⟨200, .official rec1.source_lang rec1.data rec1.cached⟩, e.cache, e.trace⟩
            | .failure _ _ => ⟨.ret ⟨404, .msg 404 "Not Found"⟩, e.cache, e.trace⟩
        else
          ⟨.ret ⟨404, .msg 404 "Not Found"⟩, cache, ⟨0, 0⟩⟩
  else if req.method == "GET" && req.pathname == "/" then
    ⟨.ret ⟨200, .info 200 "DeepLX-Worker: A Cloudflare Worker implementation of DeepLX."
      (some "https://github.com/OwO-Network/DeepLX")⟩, cache, ⟨0, 0⟩⟩
  else
    ⟨.ret ⟨404, .msg 404 "Not Found"⟩, cache, ⟨0, 0⟩⟩

/-- The worker `fetch` entrypoint of src/index.js (lines 207-246): OPTIONS
preflight short-circuit, and conversion of any escaping exception into a
500 response (CORS headers are not modelled). -/
def workerFetchA (req : JsRequest) (env : Env) (idRand : Nat)
    (reply : FetchReply) (cache : CacheState) : HttpResponse × CacheState × Trace :=
  if req.method == "OPTIONS" then (⟨200, .empty⟩, cache, ⟨0, 0⟩)
  else
    let e := handleRequestA req env idRand reply cache
    match e.outcome with
    | .ret resp => (resp, e.cache, e.trace)
    | .thrown m => (⟨500, .fault 500 "Worker threw a fatal exception" m⟩, e.cache, e.trace)

/-- The worker `fetch` entrypoint of part_000 (lines 235-272). -/
def workerFetchB (req : JsRequest) (env : Env) (idRand : Nat)
    (reply : FetchReply) (cache : CacheState) : HttpResponse × CacheState × Trace :=
  if req.method == "OPTIONS" then (⟨200, .empty⟩, cache, ⟨0, 0⟩)
  else
    let e := handleRequestB req env idRand reply cache
    match e.outcome with
    | .ret resp => (resp, e.cache, e.trace)
    | .thrown m => (⟨500, .fault 500 "Worker threw an exception" m⟩, e.cache, e.trace)



/-! ## Claim C3: empty-text short-circuit -/

/-- C3: in both implementations, a translate call whose text is empty (or
absent) immediately returns `{code: 400, message: "No text to translate."}`,
leaves the cache untouched, performs no cache lookup and no network
request, for every source language, target language, session token and
cache flag. -/
theorem translate_empty_text_spec (sourceLang targetLang : Option String)
    (dlSession : String) (useCache : Bool) (idRand : Nat) (reply : FetchReply)
    (cache : CacheState) :
    deeplxTranslateA sourceLang targetLang (some (.str "")) dlSession useCache idRand reply cache
      = ⟨.ret (.failure 400 noTextMsg), cache, ⟨0, 0⟩⟩ ∧
    deeplxTranslateB sourceLang targetLang (some (.str "")) dlSession useCache idRand reply cache
      = ⟨.ret (.failure 400 noTextMsg), cache, ⟨0, 0⟩⟩ ∧
    deeplxTranslateA sourceLang targetLang none dlSession useCache idRand reply cache
      = ⟨.ret (.failure 400 noTextMsg), cache, ⟨0, 0⟩⟩ ∧
    deeplxTranslateB sourceLang targetLang none dlSession useCache idRand reply cache
      = ⟨.ret (.failure 400 noTextMsg), cache, ⟨0, 0⟩⟩ := by
  refine ⟨rfl, rfl, rfl, rfl⟩

/-! ## Claim C4: upstream 429 and non-2xx statuses -/

/-- C4 counterexample: in part_000, a call reaching the network with the
upstream answering 429 does not return `Failure{code: 429}`: the call
throws (an unhandled fault at the call boundary, which the worker
entrypoint later converts into a generic 500 response). -/
theorem upstream_failure_counterexample :
    (deeplxTranslateB none (some "DE") (some (.str "hi")) "" false 1000
      (.reply 429 "" (.ok ⟨none, none⟩)) []).outcome = .thrown rateMsg := by decide

/-- C4 (amended): for every call that reaches the network, in src/index.js
the call returns `Failure{429, rate-limited message}` on upstream status
429 and `Failure{s, "DeepL API error: " ++ body}` on any other non-success
status `s`; in part_000 the same situations instead throw an error (the
rate-limited message, resp. `"DeepL API error: <s> <body>"`). -/
theorem upstream_failure_spec (src : Option String) (tgt s dl : String)
    (uc : Bool) (idRand : Nat) (errText : String)
    (json : Except String UpstreamJson) (cache : CacheState) (status : Nat)
    (hs : s ≠ "")
    (hmiss : uc = true →
      cacheMatchKey (finalSourceLangOf src, jsUpper tgt, s) cache = none) :
    ((deeplxTranslateA src (some tgt) (some (.str s)) dl uc idRand
        (.reply 429 errText json) cache).outcome = .ret (.failure 429 rateMsg)) ∧
    ((deeplxTranslateB src (some tgt) (some (.str s)) dl uc idRand
        (.reply 429 errText json) cache).outcome = .thrown rateMsg) ∧
    (status ≠ 429 → respOk status = false →
      ((deeplxTranslateA src (some tgt) (some (.str s)) dl uc idRand
          (.reply status errText json) cache).outcome
        = .ret (.failure status ("DeepL API error: " ++ errText)) ∧
       (deeplxTranslateB src (some tgt) (some (.str s)) dl uc idRand
          (.reply status errText json) cache).outcome
        = .thrown ("DeepL API error: " ++ toString status ++ " " ++ errText))) := by
  cases uc with
  | false =>
    refine ⟨?_, ?_, fun hst hok => ⟨?_, ?_⟩⟩
    · simp [deeplxTranslateA, textTruthy, jsTextToString, hs]
    · simp [deeplxTranslateB, textTruthy, jsTextToString, hs]
    · simp [deeplxTranslateA, textTruthy, jsTextToString, hs, hst, hok]
    · simp [deeplxTranslateB, textTruthy, jsTextToString, hs, hst, hok]
  | true =>
    have hm := hmiss rfl
    refine ⟨?_, ?_, fun hst hok => ⟨?_, ?_⟩⟩
    · simp [deeplxTranslateA, textTruthy, jsTextToString, hs, hm]
    · simp [deeplxTranslateB, textTruthy, jsTextToString, hs, hm]
    · simp [deeplxTranslateA, textTruthy, jsTextToString, hs, hm, hst, hok]
    · simp [deeplxTranslateB, textTruthy, jsTextToString, hs, hm, hst, hok]

/-- Witness for the amended C4 at concrete inputs (status 500 for the
non-success conjunct). -/
theorem upstream_failure_spec_witness :
    ((deeplxTranslateA (some "en") (some "de") (some (.str "hi")) "" true 7
        (.reply 429 "oops" (.ok ⟨none, none⟩)) []).outcome
      = .ret (.failure 429 rateMsg)) ∧
    ((deeplxTranslateB (some "en") (some "de") (some (.str "hi")) "" true 7
        (.reply 429 "oops" (.ok ⟨none, none⟩)) []).outcome = .thrown rateMsg) ∧
    ((deeplxTranslateA (some "en") (some "de") (some (.str "hi")) "" true 7
        (.reply 500 "oops" (.ok ⟨none, none⟩)) []).outcome
      = .ret (.failure 500 ("DeepL API error: " ++ "oops")) ∧
     (deeplxTranslateB (some "en") (some "de") (some (.str "hi")) "" true 7
        (.reply 500 "oops" (.ok ⟨none, none⟩)) []).outcome
      = .thrown ("DeepL API error: " ++ toString 500 ++ " " ++ "oops")) := by
  have h := upstream_failure_spec (some "en") "de" "hi" "" true 7 "oops"
    (.ok ⟨none, none⟩) [] 500 (by decide) (fun _ => by decide)
  exact ⟨h.1, h.2.1, h.2.2 (by decide) (by decide)⟩


/-! ## Claim C5: language normalization and absent target -/

/-- C5 counterexample: with non-empty text and an absent `targetLang`, the
call does not proceed to the upstream as an upstream-rejected request: it
throws a local `TypeError` (from `undefined.toUpperCase()`) before any
cache lookup or network request. -/
theorem normalization_counterexample :
    deeplxTranslateA (some "en") none (some (.str "hello")) "" true 1 (.fail "x") []
      = ⟨.thrown typeErrUpperMsg, [], ⟨0, 0⟩⟩ := by decide

/-- C5 (amended): the effective source language is "EN" when `sourceLang`
is absent, empty, or exactly the literal "auto", and is `sourceLang`
uppercased otherwise; a fresh success record carries `targetLang`
uppercased as its `target_lang`; but when `targetLang` is absent the call
fails locally with a thrown `TypeError` before any cache lookup or network
request (in both implementations), rather than proceeding to the
upstream. -/
theorem normalization_spec :
    (finalSourceLangOf none = "EN" ∧ finalSourceLangOf (some "") = "EN" ∧
      finalSourceLangOf (some "auto") = "EN") ∧
    (∀ s : String, s ≠ "" → s ≠ "auto" → finalSourceLangOf (some s) = jsUpper s) ∧
    (∀ (src : Option String) (tgt s dl : String) (idRand : Nat)
        (reply : FetchReply) (cache : CacheState) (rec1 : SuccessRec),
      (deeplxTranslateA src (some tgt) (some (.str s)) dl false idRand reply cache).outcome
          = .ret (.success rec1) → rec1.target_lang = jsUpper tgt) ∧
    (∀ (src : Option String) (txt : JsText) (dl : String) (uc : Bool) (idRand : Nat)
        (reply : FetchReply) (cache : CacheState),
      textTruthy (some txt) = true →
      deeplxTranslateA src none (some txt) dl uc idRand reply cache
          = ⟨.thrown typeErrUpperMsg, cache, ⟨0, 0⟩⟩ ∧
      deeplxTranslateB src none (some txt) dl uc idRand reply cache
          = ⟨.thrown typeErrUpperMsg, cache, ⟨0, 0⟩⟩) := by
  refine ⟨⟨rfl, rfl, rfl⟩, ?_, ?_, ?_⟩
  · intro s h1 h2
    simp [finalSourceLangOf, h1, h2]
  · intro src tgt s dl idRand reply cache rec1 h
    rcases reply with m | ⟨status, errText, json⟩
    · simp only [deeplxTranslateA] at h
      repeat' split at h
      all_goals simp_all
    · simp only [deeplxTranslateA] at h
      repeat' split at h
      all_goals (try simp_all)
      all_goals (subst h; rfl)
  · intro src txt dl uc idRand reply cache htxt
    constructor
    · simp [deeplxTranslateA, htxt]
    · simp [deeplxTranslateB, htxt]

/-- Witness for the amended C5 at concrete inputs. -/
theorem normalization_spec_witness :
    finalSourceLangOf (some "fr") = jsUpper "fr" ∧
    deeplxTranslateA (some "en") none (some (.str "hello")) "" true 1 (.fail "x") []
      = ⟨.thrown typeErrUpperMsg, [], ⟨0, 0⟩⟩ :=
  ⟨normalization_spec.2.1 "fr" (by decide) (by decide),
    (normalization_spec.2.2.2 (some "en") (.str "hello") "" true 1 (.fail "x") []
      (by decide)).1⟩


/-! ## Claim C6: caching default on the session-authenticated endpoint -/

/-- With `useCache = false`, a translate call (index.js) never touches the
cache: no lookup and no write, whatever the text, target and reply. -/
theorem translateA_nocache_effects (src tgtopt : Option String) (txt : Option JsText)
    (dl : String) (idRand : Nat) (reply : FetchReply) (cache : CacheState) :
    (deeplxTranslateA src tgtopt txt dl false idRand reply cache).cache = cache ∧
    (deeplxTranslateA src tgtopt txt dl false idRand reply cache).trace.lookups = 0 := by
  simp only [deeplxTranslateA]
  repeat' split
  all_goals simp_all

/-- With `useCache = true`, a nonempty string text and a present target, a
translate call (index.js) performs exactly one cache lookup. -/
theorem translateA_cache_lookups (src : Option String) (tgt s dl : String)
    (idRand : Nat) (reply : FetchReply) (cache : CacheState) (hs : s ≠ "") :
    (deeplxTranslateA src (some tgt) (some (.str s)) dl true idRand reply cache).trace.lookups
      = 1 := by
  have hst : (s != "") = true := by simp [hs]
  simp only [deeplxTranslateA, textTruthy, hst]
  repeat' split
  all_goals simp_all

/-- C6 counterexample: on a deployment with no shared access token
configured, a POST to `/v1/translate` whose body does not set the `cache`
field performs a cache lookup (`lookups = 1`): caching is not disabled. -/
theorem v1_cache_default_counterexample :
    (workerFetchA ⟨"POST", "/v1/translate", none, none,
        some ⟨some "en", some "de", some (.str "hi"), none⟩⟩
      ⟨none, some "sess"⟩ 1 (.fail "x") []).2.2.lookups = 1 := by decide

/-- C6 (amended): for a POST to `/v1/translate` whose body does not set the
`cache` field, caching follows the same default as every other endpoint:
disabled exactly when a nonempty shared access token is configured
(`isPrivate`), enabled otherwise — the session endpoint has no
disabled-by-default special case.  With a token configured (and the request
authenticated) there is no cache lookup and the cache is unchanged; with no
token configured the call performs a cache lookup. -/
theorem v1_cache_default_spec (env : Env) (tq ah : Option String)
    (sl : Option String) (tgt s ds : String) (idRand : Nat) (reply : FetchReply)
    (cache : CacheState)
    (hds : env.DL_SESSION = some ds) (hds2 : ds ≠ "") (hs : s ≠ "")
    (hauth : authFails ⟨"POST", "/v1/translate", tq, ah,
      some ⟨sl, some tgt, some (.str s), none⟩⟩ env = false) :
    (isPrivateOf env = true →
      (workerFetchA ⟨"POST", "/v1/translate", tq, ah,
          some ⟨sl, some tgt, some (.str s), none⟩⟩ env idRand reply cache).2.2.lookups = 0 ∧
      (workerFetchA ⟨"POST", "/v1/translate", tq, ah,
          some ⟨sl, some tgt, some (.str s), none⟩⟩ env idRand reply cache).2.1 = cache) ∧
    (isPrivateOf env = false →
      (workerFetchA ⟨"POST", "/v1/translate", tq, ah,
          some ⟨sl, some tgt, some (.str s), none⟩⟩ env idRand reply cache).2.2.lookups = 1) := by
  have hopt : (("POST" : String) == "OPTIONS") = false := by decide
  have hr1 : jsStartsWith "/v1/translate" "/translate" = false := by decide
  have hr2 : jsStartsWith "/v1/translate" "/v1/translate" = true := by decide
  have hpost : (("POST" : String) == "POST") = true := by decide
  have hp1 : (("/v1/translate" : String) == "/translate") = false := by decide
  have hp2 : (("/v1/translate" : String) == "/v1/translate") = true := by decide
  constructor
  · intro hp
    have huc : useCacheOf ⟨sl, some tgt, some (.str s), none⟩ env = false := by
      simp [useCacheOf, hp]
    simp only [workerFetchA, handleRequestA, hopt, hauth, hr1, hr2, hpost, hp1, hp2,
      hds, huc, Bool.false_eq_true, if_false, if_true, Bool.and_self, Bool.or_self]
    simp only [hds2, if_false, if_neg, hs]
    rcases ho : (deeplxTranslateA sl (some tgt) (some (.str s)) ds false idRand reply
        cache).outcome with r | m <;>
      simp [ho, translateA_nocache_effects]
  · intro hp
    have huc : useCacheOf ⟨sl, some tgt, some (.str s), none⟩ env = true := by
      simp [useCacheOf, hp]
    simp only [workerFetchA, handleRequestA, hopt, hauth, hr1, hr2, hpost, hp1, hp2,
      hds, huc, Bool.false_eq_true, if_false, if_true, Bool.and_self, Bool.or_self]
    simp only [hds2, if_false, if_neg, hs]
    rcases ho : (deeplxTranslateA sl (some tgt) (some (.str s)) ds true idRand reply
        cache).outcome with r | m <;>
      simp [ho, translateA_cache_lookups sl tgt s ds idRand reply cache hs]

/-- Witness for the amended C6 at concrete inputs (token-protected and
open deployments). -/
theorem v1_cache_default_spec_witness :
    ((workerFetchA ⟨"POST", "/v1/translate", some "tok", none,
        some ⟨some "en", some "de", some (.str "hi"), none⟩⟩
      ⟨some "tok", some "sess"⟩ 1 (.fail "x") []).2.2.lookups = 0 ∧
     (workerFetchA ⟨"POST", "/v1/translate", some "tok", none,
        some ⟨some "en", some "de", some (.str "hi"), none⟩⟩
      ⟨some "tok", some "sess"⟩ 1 (.fail "x") []).2.1 = []) ∧
    (workerFetchA ⟨"POST", "/v1/translate", none, none,
        some ⟨some "en", some "de", some (.str "hi"), none⟩⟩
      ⟨none, some "sess"⟩ 1 (.fail "x") []).2.2.lookups = 1 := by
  have h1 := v1_cache_default_spec ⟨some "tok", some "sess"⟩ (some "tok") none
    (some "en") "de" "hi" "sess" 1 (.fail "x") [] (by decide) (by decide) (by decide)
    (by decide)
  have h2 := v1_cache_default_spec ⟨none, some "sess"⟩ none none
    (some "en") "de" "hi" "sess" 1 (.fail "x") [] (by decide) (by decide) (by decide)
    (by decide)
  exact ⟨h1.1 (by decide), h2.2 (by decide)⟩


/-! ## Claim C7: /v1/translate without a configured session credential -/

/-- C7 counterexample: with no `DL_SESSION` configured, a POST to
`/v1/translate` whose body is malformed JSON yields
`{code: 400, message: "Invalid JSON in request body"}`, not the 401
DL_SESSION response — the body is parsed before the session check, so the
response is not 401 "regardless of body contents". -/
theorem v1_no_session_counterexample :
    (workerFetchA ⟨"POST", "/v1/translate", none, none, none⟩
      ⟨none, none⟩ 1 (.fail "x") []).1
    = ⟨400, .msg 400 "Invalid JSON in request body"⟩ := by decide

/-- C7 (amended): on a deployment with no shared token and no session
credential (absent or empty `DL_SESSION`), a POST to `/v1/translate` whose
body is well-formed JSON returns 401 with the DL_SESSION-not-configured
message (each implementation with its own message text), whatever the
body's fields; a malformed JSON body instead returns 400
"Invalid JSON in request body". -/
theorem v1_no_session_spec (tq ah : Option String) (body : TranslateBody)
    (env : Env) (idRand : Nat) (reply : FetchReply) (cache : CacheState)
    (htok : env.TOKEN = none)
    (hds : env.DL_SESSION = none ∨ env.DL_SESSION = some "") :
    workerFetchA ⟨"POST", "/v1/translate", tq, ah, some body⟩ env idRand reply cache
      = (⟨401, .msg 401 "DL_SESSION is not configured."⟩, cache, ⟨0, 0⟩) ∧
    workerFetchB ⟨"POST", "/v1/translate", tq, ah, some body⟩ env idRand reply cache
      = (⟨401, .msg 401 "DL_SESSION is not configured in worker environment."⟩,
          cache, ⟨0, 0⟩) ∧
    workerFetchA ⟨"POST", "/v1/translate", tq, ah, none⟩ env idRand reply cache
      = (⟨400, .msg 400 "Invalid JSON in request body"⟩, cache, ⟨0, 0⟩) ∧
    workerFetchB ⟨"POST", "/v1/translate", tq, ah, none⟩ env idRand reply cache
      = (⟨400, .msg 400 "Invalid JSON in request body"⟩, cache, ⟨0, 0⟩) := by
  have hauth : ∀ b, authFails ⟨"POST", "/v1/translate", tq, ah, b⟩ env = false := by
    intro b; simp [authFails, htok]
  have hopt : (("POST" : String) == "OPTIONS") = false := by decide
  have hr1 : jsStartsWith "/v1/translate" "/translate" = false := by decide
  have hr2 : jsStartsWith "/v1/translate" "/v1/translate" = true := by decide
  have hpost : (("POST" : String) == "POST") = true := by decide
  have hp1 : (("/v1/translate" : String) == "/translate") = false := by decide
  have hp2 : (("/v1/translate" : String) == "/v1/translate") = true := by decide
  rcases hds with hds | hds <;>
    refine ⟨?_, ?_, ?_, ?_⟩ <;>
      simp [workerFetchA, workerFetchB, handleRequestA, handleRequestB, hauth,
        hopt, hr1, hr2, hpost, hp1, hp2, hds]

/-- Witness for the amended C7 at concrete inputs. -/
theorem v1_no_session_spec_witness :
    workerFetchA ⟨"POST", "/v1/translate", none, none,
        some ⟨some "en", some "de", some (.str "hi"), none⟩⟩
      ⟨none, none⟩ 1 (.fail "x") []
      = (⟨401, .msg 401 "DL_SESSION is not configured."⟩, [], ⟨0, 0⟩) ∧
    workerFetchB ⟨"POST", "/v1/translate", none, none, none⟩
      ⟨none, none⟩ 1 (.fail "x") []
      = (⟨400, .msg 400 "Invalid JSON in request body"⟩, [], ⟨0, 0⟩) :=
  ⟨(v1_no_session_spec none none ⟨some "en", some "de", some (.str "hi"), none⟩
      ⟨none, none⟩ 1 (.fail "x") [] (by decide) (Or.inl (by decide))).1,
   (v1_no_session_spec none none ⟨none, none, none, none⟩
      ⟨none, none⟩ 1 (.fail "x") [] (by decide) (Or.inl (by decide))).2.2.2⟩

/-! ## Claim C9: the root info endpoint and authentication -/

/-- C9 counterexample: in src/index.js the shared-secret middleware guards
every path, so on a deployment with a shared secret configured, an
unauthenticated `GET /` returns 401 "Invalid access token", not the 200
info response. -/
theorem root_info_counterexample :
    (workerFetchA ⟨"GET", "/", none, none, none⟩
      ⟨some "s3cret", none⟩ 1 (.fail "x") []).1
    = ⟨401, .msg 401 "Invalid access token"⟩ := by decide

/-- C9 (amended): in part_000, `GET /` requires no authentication — even
with a shared secret configured and no credentials supplied it returns
`{code: 200, message, repository}`.  In src/index.js the info body has no
`repository` field, and the secret check applies to `GET /` as well: with
no secret configured the route returns `{code: 200, message}`, but with a
nonempty secret configured an unauthenticated `GET /` returns
`{code: 401, message: "Invalid access token"}`. -/
theorem root_info_spec (env : Env) (tq ah : Option String) (idRand : Nat)
    (reply : FetchReply) (cache : CacheState) :
    (workerFetchB ⟨"GET", "/", tq, ah, none⟩ env idRand reply cache
      = (⟨200, .info 200 "DeepLX-Worker: A Cloudflare Worker implementation of DeepLX."
          (some "https://github.com/OwO-Network/DeepLX")⟩, cache, ⟨0, 0⟩)) ∧
    (env.TOKEN = none →
      workerFetchA ⟨"GET", "/", tq, ah, none⟩ env idRand reply cache
        = (⟨200, .info 200 "DeepLX-Worker: A Cloudflare Worker implementation of DeepLX."
            none⟩, cache, ⟨0, 0⟩)) ∧
    (∀ t : String, env.TOKEN = some t → t ≠ "" →
      workerFetchA ⟨"GET", "/", none, none, none⟩ env idRand reply cache
        = (⟨401, .msg 401 "Invalid access token"⟩, cache, ⟨0, 0⟩)) := by
  have hopt : (("GET" : String) == "OPTIONS") = false := by decide
  have hget : (("GET" : String) == "POST") = false := by decide
  have hr1 : jsStartsWith "/" "/translate" = false := by decide
  have hr2 : jsStartsWith "/" "/v1/translate" = false := by decide
  have hr3 : jsStartsWith "/" "/v2/translate" = false := by decide
  have hg : (("GET" : String) == "GET") = true := by decide
  have hroot : (("/" : String) == "/") = true := by decide
  refine ⟨?_, ?_, ?_⟩
  · simp [workerFetchB, handleRequestB, hopt, hget, hr1, hr2, hr3, hg, hroot]
  · intro htok
    have hauth : authFails ⟨"GET", "/", tq, ah, none⟩ env = false := by
      simp [authFails, htok]
    simp [workerFetchA, handleRequestA, hopt, hget, hr1, hr2, hr3, hg, hroot, hauth]
  · intro t htok ht
    have hauth : authFails ⟨"GET", "/", none, none, none⟩ env = true := by
      simp [authFails, htok, tokenInHeaderOf, ht]
      intro h
      exact absurd h.symm ht
    simp [workerFetchA, hopt, handleRequestA, hauth]

/-- Witness for the amended C9 at concrete inputs. -/
theorem root_info_spec_witness :
    (workerFetchB ⟨"GET", "/", none, none, none⟩ ⟨some "s3cret", none⟩ 1 (.fail "x") []
      = (⟨200, .info 200 "DeepLX-Worker: A Cloudflare Worker implementation of DeepLX."
          (some "https://github.com/OwO-Network/DeepLX")⟩, [], ⟨0, 0⟩)) ∧
    (workerFetchA ⟨"GET", "/", none, none, none⟩ ⟨none, none⟩ 1 (.fail "x") []
      = (⟨200, .info 200 "DeepLX-Worker: A Cloudflare Worker implementation of DeepLX."
          none⟩, [], ⟨0, 0⟩)) ∧
    (workerFetchA ⟨"GET", "/", none, none, none⟩ ⟨some "s3cret", none⟩ 1 (.fail "x") []
      = (⟨401, .msg 401 "Invalid access token"⟩, [], ⟨0, 0⟩)) :=
  ⟨(root_info_spec ⟨some "s3cret", none⟩ none none 1 (.fail "x") []).1,
   (root_info_spec ⟨none, none⟩ none none 1 (.fail "x") []).2.1 (by decide),
   (root_info_spec ⟨some "s3cret", none⟩ none none 1 (.fail "x") []).2.2 "s3cret"
     (by decide) (by decide)⟩


/-! ## Claim C8: caching round-trip -/

/-- C8: a successful translate call with caching enabled (cache miss, 2xx
well-formed upstream reply, nonempty first text), followed immediately by
an identical call (same languages, exact same text) with caching enabled,
returns on the second call the exact same record — in particular the same
`data`, `alternatives` and `source_lang` — with `cached := true`, and the
second call performs no upstream fetch (one cache lookup, zero network
requests), for any second-call oracle.  The fire-and-forget cache write is
modelled as completed when the first call returns. -/
theorem cache_roundtrip_spec (src : Option String) (tgt s dl dl2 : String)
    (id1 id2 : Nat) (status : Nat) (errText : String) (j : UpstreamJson)
    (reply2 : FetchReply) (cache : CacheState)
    (t0 : UpstreamText) (rest : List UpstreamText) (lang : String)
    (hs : s ≠ "") (hok : respOk status = true)
    (herr : j.err = none) (hres : j.result = some ⟨some (t0 :: rest), lang⟩)
    (ht0 : t0.text ≠ "")
    (hmiss : cacheMatchKey (finalSourceLangOf src, jsUpper tgt, s) cache = none) :
    (deeplxTranslateA src (some tgt) (some (.str s)) dl true id1
        (.reply status errText (.ok j)) cache).outcome
      = .ret (.success ⟨id1, t0.text, t0.alternatives.getD [], lang, jsUpper tgt,
          (if dl != "" then "Pro" else "Free"), false⟩) ∧
    (deeplxTranslateA src (some tgt) (some (.str s)) dl2 true id2 reply2
        ((deeplxTranslateA src (some tgt) (some (.str s)) dl true id1
          (.reply status errText (.ok j)) cache).cache))
      = ⟨.ret (.success ⟨id1, t0.text, t0.alternatives.getD [], lang, jsUpper tgt,
            (if dl != "" then "Pro" else "Free"), true⟩),
          (deeplxTranslateA src (some tgt) (some (.str s)) dl true id1
            (.reply status errText (.ok j)) cache).cache,
          ⟨1, 0⟩⟩ := by
  have h429 : ¬(status = 429) := by
    simp [respOk] at hok
    omega
  have hst : (s != "") = true := by simp [hs]
  have he1 : deeplxTranslateA src (some tgt) (some (.str s)) dl true id1
      (.reply status errText (.ok j)) cache
      = ⟨.ret (.success ⟨id1, t0.text, t0.alternatives.getD [], lang, jsUpper tgt,
            (if dl != "" then "Pro" else "Free"), false⟩),
          cachePutKey (finalSourceLangOf src, jsUpper tgt, s)
            ⟨id1, t0.text, t0.alternatives.getD [], lang, jsUpper tgt,
              (if dl != "" then "Pro" else "Free"), false⟩ cache,
          ⟨1, 1⟩⟩ := by
    simp [deeplxTranslateA, textTruthy, hst, jsTextToString, hmiss, h429, hok, herr,
      hres, ht0]
  refine ⟨by rw [he1], ?_⟩
  rw [he1]
  simp [deeplxTranslateA, textTruthy, hst, jsTextToString, cachePutKey, cacheMatchKey]

/-- Witness for C8 at concrete inputs. -/
theorem cache_roundtrip_spec_witness :
    (deeplxTranslateA (some "en") (some "de") (some (.str "hi")) "" true 7
        (.reply 200 "" (.ok ⟨none, some ⟨some [⟨"hallo", some ["servus"]⟩], "EN"⟩⟩)) []).outcome
      = .ret (.success ⟨7, "hallo", (some ["servus"] : Option (List String)).getD [], "EN",
          jsUpper "de", (if ("" : String) != "" then "Pro" else "Free"), false⟩) ∧
    (deeplxTranslateA (some "en") (some "de") (some (.str "hi")) "x" true 9 (.fail "boom")
        ((deeplxTranslateA (some "en") (some "de") (some (.str "hi")) "" true 7
          (.reply 200 "" (.ok ⟨none, some ⟨some [⟨"hallo", some ["servus"]⟩], "EN"⟩⟩)) []).cache))
      = ⟨.ret (.success ⟨7, "hallo", (some ["servus"] : Option (List String)).getD [], "EN",
            jsUpper "de", (if ("" : String) != "" then "Pro" else "Free"), true⟩),
          (deeplxTranslateA (some "en") (some "de") (some (.str "hi")) "" true 7
            (.reply 200 "" (.ok ⟨none, some ⟨some [⟨"hallo", some ["servus"]⟩], "EN"⟩⟩)) []).cache,
          ⟨1, 0⟩⟩ :=
  cache_roundtrip_spec (some "en") "de" "hi" "" "x" 7 9 200 ""
    ⟨none, some ⟨some [⟨"hallo", some ["servus"]⟩], "EN"⟩⟩ (.fail "boom") []
    ⟨"hallo", some ["servus"]⟩ [] "EN"
    (by decide) (by decide) (by decide) (by decide) (by decide) (by decide)


/-! ## Claim C10: observable equivalence of the two implementations -/

/-- C10 counterexample: the two implementations already disagree on
`GET /` with default configuration — part_000's info body carries a
`repository` field that index.js's body lacks — so they are not observably
equivalent at the HTTP boundary. -/
theorem impl_equiv_counterexample :
    (workerFetchA ⟨"GET", "/", none, none, none⟩ ⟨none, none⟩ 1 (.fail "x") []).1
      ≠ (workerFetchB ⟨"GET", "/", none, none, none⟩ ⟨none, none⟩ 1 (.fail "x") []).1 := by
  decide

/-- On a string text with a present target and a 2xx well-formed upstream
reply with a nonempty first text, the two translate routines agree
exactly (same outcome, cache and trace), for every cache state and
source-language value. -/
theorem translateAB_agree (src tgtv : Option String) (s2 dl : String) (uc : Bool)
    (idRand status : Nat) (errText : String) (j : UpstreamJson) (cache : CacheState)
    (t0 : UpstreamText) (rest : List UpstreamText) (lang : String)
    (hok : respOk status = true) (herr : j.err = none)
    (hres : j.result = some ⟨some (t0 :: rest), lang⟩) (ht0 : t0.text ≠ "") :
    deeplxTranslateA src tgtv (some (.str s2)) dl uc idRand
        (.reply status errText (.ok j)) cache
      = deeplxTranslateB src tgtv (some (.str s2)) dl uc idRand
        (.reply status errText (.ok j)) cache := by
  have h429 : ¬(status = 429) := by
    simp [respOk] at hok
    omega
  simp [deeplxTranslateA, deeplxTranslateB, h429, hok, herr, hres, ht0]

/-- Every result that part_000's translate routine returns (rather than
throws) has a nonzero code, so index.js's `result.code || 500` fallback is
the identity on the shared paths. -/
theorem translateB_ret_code (src tgtv : Option String) (txt : Option JsText)
    (dl : String) (uc : Bool) (idRand : Nat) (reply : FetchReply)
    (cache : CacheState) (r : TransResult)
    (h : (deeplxTranslateB src tgtv txt dl uc idRand reply cache).outcome = .ret r) :
    r.code ≠ 0 := by
  simp only [deeplxTranslateB] at h
  repeat' split at h
  all_goals (try simp_all)
  all_goals
    (rw [← h]
     simp [TransResult.code])

/-- Under a 2xx well-formed upstream reply with nonempty texts, part_000's
translate routine never throws on a string text with a present target. -/
theorem translateB_reply_no_throw (src : Option String) (tgt s2 dl : String) (uc : Bool)
    (idRand status : Nat) (errText : String) (j : UpstreamJson) (cache : CacheState)
    (t0 : UpstreamText) (rest : List UpstreamText) (lang : String) (m : String)
    (hok : respOk status = true) (herr : j.err = none)
    (hres : j.result = some ⟨some (t0 :: rest), lang⟩) :
    (deeplxTranslateB src (some tgt) (some (.str s2)) dl uc idRand
        (.reply status errText (.ok j)) cache).outcome ≠ .thrown m := by
  intro h
  have h429 : ¬(status = 429) := by
    simp [respOk] at hok
    omega
  simp only [deeplxTranslateB] at h
  repeat' split at h
  all_goals simp_all

/-- C10 (amended): the two implementations are not observably equivalent
(see the counterexample), but they agree on the happy path: for every POST
to exactly `/translate` whose body parses, carries a string text and a
present target, when the upstream replies 2xx with well-formed JSON, no
error object and a nonempty first text, both produce the same response,
cache state and trace — for every environment, credentials, cache state
and cache flag; and they agree on every OPTIONS preflight. -/
theorem impl_equiv_spec (env : Env) (tq ah : Option String)
    (sl : Option String) (tgt : String) (cfl : Option Bool)
    (idRand status : Nat) (errText : String) (j : UpstreamJson)
    (cache : CacheState) (t0 : UpstreamText) (rest : List UpstreamText) (lang : String)
    (hok : respOk status = true) (herr : j.err = none)
    (hres : j.result = some ⟨some (t0 :: rest), lang⟩) (ht0 : t0.text ≠ "") :
    (∀ s2 : String,
      workerFetchA ⟨"POST", "/translate", tq, ah, some ⟨sl, some tgt, some (.str s2), cfl⟩⟩
          env idRand (.reply status errText (.ok j)) cache
        = workerFetchB ⟨"POST", "/translate", tq, ah, some ⟨sl, some tgt, some (.str s2), cfl⟩⟩
          env idRand (.reply status errText (.ok j)) cache) ∧
    (∀ (req : JsRequest) (reply : FetchReply) (cache2 : CacheState),
      req.method = "OPTIONS" →
      workerFetchA req env idRand reply cache2 = workerFetchB req env idRand reply cache2) := by
  have hopt : (("POST" : String) == "OPTIONS") = false := by decide
  have hpost : (("POST" : String) == "POST") = true := by decide
  have hr1 : jsStartsWith "/translate" "/translate" = true := by decide
  have hp1 : (("/translate" : String) == "/translate") = true := by decide
  constructor
  · intro s2
    by_cases hA : authFails ⟨"POST", "/translate", tq, ah,
        some ⟨sl, some tgt, some (.str s2), cfl⟩⟩ env = true
    · simp [workerFetchA, workerFetchB, handleRequestA, handleRequestB, hopt, hpost,
        hr1, hp1, hA]
    · have hA' : authFails ⟨"POST", "/translate", tq, ah,
          some ⟨sl, some tgt, some (.str s2), cfl⟩⟩ env = false := by
        simpa using hA
      rw [workerFetchA, workerFetchB]
      simp only [hopt, Bool.false_eq_true, if_false]
      rw [handleRequestA, handleRequestB]
      simp only [hA', hpost, hr1, hp1, Bool.false_eq_true, if_false, Bool.true_and,
        Bool.or_self, if_true, Bool.true_eq_false]
      rw [translateAB_agree sl (some tgt) s2 "" _ idRand status errText j cache t0 rest
        lang hok herr hres ht0]
      rcases ho : (deeplxTranslateB sl (some tgt) (some (.str s2)) ""
          (useCacheOf ⟨sl, some tgt, some (.str s2), cfl⟩ env) idRand
          (.reply status errText (.ok j)) cache).outcome with r | m
      · have hc := translateB_ret_code sl (some tgt) (some (.str s2)) ""
          (useCacheOf ⟨sl, some tgt, some (.str s2), cfl⟩ env) idRand
          (.reply status errText (.ok j)) cache r ho
        simp [ho, hc]
      · exact absurd ho (translateB_reply_no_throw sl tgt s2 ""
          (useCacheOf ⟨sl, some tgt, some (.str s2), cfl⟩ env) idRand status errText j
          cache t0 rest lang m hok herr hres)
  · intro req reply cache2 hm
    have : (req.method == "OPTIONS") = true := by simp [hm]
    simp [workerFetchA, workerFetchB, this]

/-- Witness for the amended C10 at concrete inputs. -/
theorem impl_equiv_spec_witness :
    workerFetchA ⟨"POST", "/translate", none, none,
        some ⟨some "en", some "de", some (.str "hi"), none⟩⟩
      ⟨none, none⟩ 7 (.reply 200 ""
        (.ok ⟨none, some ⟨some [⟨"hallo", some ["servus"]⟩], "EN"⟩⟩)) []
    = workerFetchB ⟨"POST", "/translate", none, none,
        some ⟨some "en", some "de", some (.str "hi"), none⟩⟩
      ⟨none, none⟩ 7 (.reply 200 ""
        (.ok ⟨none, some ⟨some [⟨"hallo", some ["servus"]⟩], "EN"⟩⟩)) [] :=
  (impl_equiv_spec ⟨none, none⟩ none none (some "en") "de" none 7 200 ""
    ⟨none, some ⟨some [⟨"hallo", some ["servus"]⟩], "EN"⟩⟩ []
    ⟨"hallo", some ["servus"]⟩ [] "EN"
    (by decide) (by decide) (by decide) (by decide)).1 "hi"

end DeepLXWorker
